import Mathlib

/-!
Verification of the multiplayer puzzle server core: a shallow embedding of
the MySQL stored procedures (`sp_update_elo`, `sp_update_user_stats`), the
database layer (`updateLeaderboardEntry`, `recalculateLeaderboardRanks`,
`recordMove`, `addExperience`), and the Express/Socket.IO handlers
(complete endpoint, `join_matchmaking`, `disconnect`), together with proofs
about the matchmaking, rating, leaderboard, stats and session-lifecycle
behaviour.

SQL integer columns are embedded as `Int`, `DECIMAL` columns as `Rat`,
`VARCHAR` as `String`, nullable columns as `Option`.  Tables keyed by a
unique column are embedded as total functions from the key (every user id
has a `user_stats` / `users` row, created by the `tr_create_user_stats`
trigger); the `leaderboards` and `game_moves` tables, which have no single
key, are embedded as lists of rows.
-/

/-- Prefix test on character lists (helper for `strContains`). -/
def charsPre : List Char → List Char → Bool
  | [], _ => true
  | _ :: _, [] => false
  | a :: as, b :: bs => a == b && charsPre as bs

/-- Occurrence test on character lists (helper for `strContains`). -/
def charsContain (pat : List Char) : List Char → Bool
  | [] => pat.isEmpty
  | c :: rest => charsPre pat (c :: rest) || charsContain pat rest

/-- Substring test, embedding JavaScript `String.prototype.includes` as used
by `category.includes("speed")` in `updateLeaderboardEntry` and
`recalculateLeaderboardRanks`. -/
def strContains (s pat : String) : Bool := charsContain pat.data s.data

/-- MySQL ROUND(x, 2): round to two decimal places.  MySQL rounds decimal
values half away from zero while `round` rounds half up; the two agree on all
nonnegative arguments, which is the only way `round2` is reached below. -/
def round2 (x : ℚ) : ℚ := (round (x * 100) : ℚ) / 100

/-- Row of the `user_stats` table (the columns touched by the stored
procedures; `stat_id` and `updated_at` carry no logic and are omitted). -/
structure UserStats where
  total_games : ℤ
  total_wins : ℤ
  total_losses : ℤ
  win_rate : ℚ
  average_completion_time : ℤ
  best_completion_time : ℤ
  average_moves : ℚ
  best_move_count : ℤ
  elo_rating : ℤ
  rank_position : ℤ
  current_win_streak : ℤ
  current_loss_streak : ℤ
  best_win_streak : ℤ
  speed_mode_wins : ℤ
  fewest_moves_wins : ℤ
  multiplayer_wins : ℤ
  practice_games : ℤ
  games_3x3 : ℤ
  games_4x4 : ℤ
  games_6x6 : ℤ
  games_8x8 : ℤ
  games_10x10 : ℤ
  deriving DecidableEq

/-- Fresh `user_stats` row with the schema defaults (`elo_rating` 1000). -/
def defaultStats : UserStats where
  total_games := 0
  total_wins := 0
  total_losses := 0
  win_rate := 0
  average_completion_time := 0
  best_completion_time := 0
  average_moves := 0
  best_move_count := 0
  elo_rating := 1000
  rank_position := 0
  current_win_streak := 0
  current_loss_streak := 0
  best_win_streak := 0
  speed_mode_wins := 0
  fewest_moves_wins := 0
  multiplayer_wins := 0
  practice_games := 0
  games_3x3 := 0
  games_4x4 := 0
  games_6x6 := 0
  games_8x8 := 0
  games_10x10 := 0

/-- Stored procedure `sp_update_user_stats`.  MySQL evaluates the `SET`
assignments of a single-table `UPDATE` left to right, and an assignment that
reads a column assigned EARLIER in the same statement sees the already
updated value (MySQL reference manual, UPDATE statement); a column's own
assignment still reads its old value.  Hence `total_games` and `total_wins`
below denote the new values wherever a later assignment mentions them, while
`average_completion_time`, `best_completion_time`, `average_moves`,
`best_move_count` and `best_win_streak` read their own old values.
The division in the two rolling averages is exact here; MySQL computes it as
a DECIMAL with four extra fractional digits, which agrees with the exact
quotient after the outer ROUND except within 5e-5 of a rounding boundary,
a difference no theorem below depends on. -/
def sp_update_user_stats (s : UserStats) (p_is_win : Bool)
    (p_completion_time p_move_count p_board_size : ℤ) (p_game_mode : String) :
    UserStats :=
  let total_games := s.total_games + 1
  let total_wins := s.total_wins + (if p_is_win then 1 else 0)
  let total_losses := s.total_losses + (if p_is_win then 0 else 1)
  let win_rate :=
    round2 ((((total_wins : ℚ) + (if p_is_win then 1 else 0)) * 100) / ((total_games : ℚ) + 1))
  let average_completion_time :=
    round (((s.average_completion_time * total_games + p_completion_time : ℤ) : ℚ) /
      ((total_games : ℚ) + 1))
  let best_completion_time :=
    if 0 < p_completion_time ∧
        (s.best_completion_time = 0 ∨ p_completion_time < s.best_completion_time)
    then p_completion_time else s.best_completion_time
  let average_moves :=
    round2 ((s.average_moves * (total_games : ℚ) + (p_move_count : ℚ)) / ((total_games : ℚ) + 1))
  let best_move_count :=
    if s.best_move_count = 0 ∨ p_move_count < s.best_move_count
    then p_move_count else s.best_move_count
  let current_win_streak := if p_is_win then s.current_win_streak + 1 else 0
  let current_loss_streak := if p_is_win then 0 else s.current_loss_streak + 1
  let best_win_streak :=
    max s.best_win_streak
      (if p_is_win then current_win_streak + 1 else current_win_streak)
  let s1 : UserStats :=
    { s with
      total_games := total_games
      total_wins := total_wins
      total_losses := total_losses
      win_rate := win_rate
      average_completion_time := average_completion_time
      best_completion_time := best_completion_time
      average_moves := average_moves
      best_move_count := best_move_count
      current_win_streak := current_win_streak
      current_loss_streak := current_loss_streak
      best_win_streak := best_win_streak }
  let s2 : UserStats :=
    if p_game_mode = "speed" then
      { s1 with speed_mode_wins := s1.speed_mode_wins + (if p_is_win then 1 else 0) }
    else if p_game_mode = "fewest_moves" then
      { s1 with fewest_moves_wins := s1.fewest_moves_wins + (if p_is_win then 1 else 0) }
    else if p_game_mode = "multiplayer" then
      { s1 with multiplayer_wins := s1.multiplayer_wins + (if p_is_win then 1 else 0) }
    else if p_game_mode = "practice" then
      { s1 with practice_games := s1.practice_games + 1 }
    else s1
  { s2 with
    games_3x3 := s2.games_3x3 + (if p_board_size = 3 then 1 else 0)
    games_4x4 := s2.games_4x4 + (if p_board_size = 4 then 1 else 0)
    games_6x6 := s2.games_6x6 + (if p_board_size = 6 then 1 else 0)
    games_8x8 := s2.games_8x8 + (if p_board_size = 8 then 1 else 0)
    games_10x10 := s2.games_10x10 + (if p_board_size = 10 then 1 else 0) }

/-- Decides whether `k ≤ 10000 / (1 + 10 ^ (d / 400)) + 1 / 2` over the reals,
purely by integer arithmetic: for `1 ≤ k ≤ 10000` the inequality is equivalent
to `10 ^ (d / 400) ≤ (20001 - 2k) / (2k - 1)`, and raising both (positive)
sides to the 400th power turns it into the integer comparison below. -/
def expectedTest (d : ℤ) (k : ℕ) : Bool :=
  if k = 0 then true
  else if 10000 < k then false
  else
    let a : ℕ := 20001 - 2 * k
    let b : ℕ := 2 * k - 1
    if 0 ≤ d then 10 ^ d.toNat * b ^ 400 ≤ a ^ 400
    else b ^ 400 ≤ 10 ^ (-d).toNat * a ^ 400

/-- Binary search for the greatest `k` with `expectedTest d k = true`, given
`expectedTest d lo = true` and `expectedTest d hi = false`; the predicate is
downward closed, and 20 halvings narrow the initial interval of width 10001
to width one. -/
def expectedSearch (d : ℤ) : ℕ → ℕ → ℕ → ℕ
  | lo, _, 0 => lo
  | lo, hi, fuel + 1 =>
    if hi ≤ lo + 1 then lo
    else
      let mid := (lo + hi) / 2
      if expectedTest d mid then expectedSearch d mid hi fuel
      else expectedSearch d lo mid fuel

/-- Expected score of `sp_update_elo`: the DECIMAL(5,4) value of
`1 / (1 + POW(10, (otherElo - myElo) / 400.0))`, i.e. the true real value of
the logistic formula rounded to four decimal places (the rounding boundary
`.00005` is never hit exactly because `10 ^ (d / 400)` is irrational except
at multiples of 400, where the boundary is not attained either, so the
rounding mode is immaterial). -/
def expectedScore (myElo otherElo : ℤ) : ℚ :=
  (expectedSearch (otherElo - myElo) 0 10001 20 : ℚ) / 10000

/-- Actual scores of `sp_update_elo`: `(1,0)` if player 1 won, `(0,1)` if
player 2 won, `(0.5, 0.5)` otherwise (a SQL NULL winner compares false with
both ids, so a draw is `winnerId = none` or any third value). -/
def actualScores (winnerId : Option ℤ) (p1 p2 : ℤ) : ℚ × ℚ :=
  if winnerId = some p1 then (1, 0)
  else if winnerId = some p2 then (0, 1)
  else (1 / 2, 1 / 2)

/-- ELO deltas of `sp_update_elo`: `ROUND(k_factor * (actual - expected))`
with `k_factor = 32`.  MySQL ROUND is half away from zero and `round` is half
up; the argument's fractional part is never exactly one half (that would need
`32 * k ≡ 5000 [MOD 10000]`, impossible since `gcd 32 10000 = 16` does not
divide 5000), so the two agree. -/
def sp_update_elo_changes (elo1 elo2 : ℤ) (winnerId : Option ℤ) (p1 p2 : ℤ) : ℤ × ℤ :=
  let expected1 := expectedScore elo1 elo2
  let expected2 := expectedScore elo2 elo1
  let actual := actualScores winnerId p1 p2
  (round ((32 : ℚ) * (actual.1 - expected1)), round ((32 : ℚ) * (actual.2 - expected2)))

/-- Clamp of the `UPDATE user_stats SET elo_rating = GREATEST(800,
LEAST(3000, elo_rating + elo_change))` statements. -/
def clampElo (r : ℤ) : ℤ := max 800 (min 3000 r)

/-- Pointwise update of a keyed table embedded as a total function. -/
def updFn {α : Type} [DecidableEq α] {β : Type} (f : α → β) (k : α) (g : β → β) : α → β :=
  fun x => if x = k then g (f x) else f x

/-- Stored procedure `sp_update_elo`: reads both players' `elo_rating` from
`user_stats`, computes both deltas, then runs one clamped `UPDATE` per
player (in that order); returns the updated table and both deltas. -/
def sp_update_elo (stats : ℤ → UserStats) (p_player1_id p_player2_id : ℤ)
    (p_winner_id : Option ℤ) : (ℤ → UserStats) × ℤ × ℤ :=
  let player1_elo := (stats p_player1_id).elo_rating
  let player2_elo := (stats p_player2_id).elo_rating
  let changes := sp_update_elo_changes player1_elo player2_elo p_winner_id p_player1_id p_player2_id
  let stats1 := updFn stats p_player1_id
    (fun s => { s with elo_rating := clampElo (s.elo_rating + changes.1) })
  let stats2 := updFn stats1 p_player2_id
    (fun s => { s with elo_rating := clampElo (s.elo_rating + changes.2) })
  (stats2, changes)

/-- Row of the `game_sessions` table (columns with logic in the embedded
operations; per-player metric columns, `puzzle_config_id` and `started_at`
are omitted).  `completed_at_set` embeds whether the nullable `completed_at`
timestamp column has been stamped. -/
structure GameSession where
  player1_id : ℤ
  player2_id : Option ℤ
  winner_id : Option ℤ
  board_size : ℤ
  game_mode : String
  status : String
  completion_time : Option ℤ
  move_count : ℤ
  perfect_game : Bool
  speed_bonus : Bool
  completed_at_set : Bool
  deriving DecidableEq

/-- Row of the `leaderboards` table (the columns read or written by
`updateLeaderboardEntry` and `recalculateLeaderboardRanks`). -/
structure LeaderboardRow where
  user_id : ℤ
  category : String
  season : String
  score : ℚ
  elo_rating : ℤ
  rank_position : ℤ
  deriving DecidableEq

/-- Row of the `game_moves` table; the JSON `board_state` column is kept as
the string `JSON.stringify` produces. -/
structure MoveRow where
  session_id : ℤ
  user_id : ℤ
  move_number : ℤ
  tile_position : ℤ
  empty_position : ℤ
  direction : String
  board_state : String
  time_elapsed : ℤ
  deriving DecidableEq

/-- Row of the `users` table (the two columns `addExperience` reads and
writes; schema defaults `level` 1, `experience_points` 0). -/
structure UserRow where
  level : ℕ
  experience_points : ℕ
  deriving DecidableEq

/-- Database state: the tables the embedded operations touch.  `sessions`,
`stats` and `users` are keyed maps (`user_stats` and `users` rows exist for
every user id, created by the `tr_create_user_stats` trigger); `ach` maps a
user id and an `achievement_key` to the `current_progress` column of the
user's `user_achievements` row (completion flags and the time-gated
`times_unlocked` counter carry no logic used by any claim and are omitted);
`leaderboards` and `moves` are row lists. -/
structure DB where
  sessions : ℤ → Option GameSession
  stats : ℤ → UserStats
  users : ℤ → UserRow
  ach : ℤ → String → ℤ
  leaderboards : List LeaderboardRow
  moves : List MoveRow

/-- The `UPDATE game_sessions` issued by the complete endpoint through
`db.updateGameSession`: sets the six passed fields and, because the update
carries `status = "completed"`, also stamps `completed_at`; a `WHERE` miss
(unknown id) updates nothing. -/
def updateGameSessionCompleted (db : DB) (sessionId : ℤ) (winnerId : Option ℤ)
    (completionTime moveCount : ℤ) (perfectGame speedBonus : Bool) : DB :=
  { db with sessions := fun x =>
      if x = sessionId then
        (db.sessions x).map fun s =>
          { s with
            status := "completed"
            winner_id := winnerId
            completion_time := some completionTime
            move_count := moveCount
            perfect_game := perfectGame
            speed_bonus := speedBonus
            completed_at_set := true }
      else db.sessions x }

/-- Level-up loop of `addExperience`: while `remainingXP >= newLevel * 100`,
subtract and increment.  The source loop diverges if `level` were 0; the
schema default is 1 and the loop is entered only with positive levels, so the
embedding guards that unreachable case to stay total. -/
def levelLoop (lvl xp : ℕ) : ℕ × ℕ :=
  if h : lvl * 100 ≤ xp ∧ 0 < lvl then
    levelLoop (lvl + 1) (xp - lvl * 100)
  else (lvl, xp)
termination_by xp
decreasing_by
  exact Nat.sub_lt (Nat.lt_of_lt_of_le (Nat.mul_pos h.2 (by norm_num)) h.1)
    (Nat.mul_pos h.2 (by norm_num))

/-- The `db.addExperience` transaction: read `level` and `experience_points`,
add the gained XP, run the level-up loop, write back; returns the updated
`users` table, whether a level-up happened, and the new level. -/
def addExperience (users : ℤ → UserRow) (userId : ℤ) (xp : ℕ) :
    (ℤ → UserRow) × Bool × ℕ :=
  let u := users userId
  let r := levelLoop u.level (u.experience_points + xp)
  (updFn users userId (fun _ => ⟨r.1, r.2⟩), decide (u.level < r.1), r.1)

/-- The progress write of `db.updateAchievementProgress`: an `UPDATE` of the
single `user_achievements` row of `(userId, achievement key)`. -/
def updateAchievementProgress (ach : ℤ → String → ℤ) (userId : ℤ)
    (key : String) (progress : ℤ) : ℤ → String → ℤ :=
  fun u k => if u = userId ∧ k = key then progress else ach u k

/-- The `INSERT INTO game_moves` of `db.recordMove`; the table's foreign key
on `session_id` makes the insert fail for an unknown session, embedded as
`none`.  No status check of any kind is performed. -/
def recordMove (db : DB) (sessionId userId moveNumber tilePos emptyPos : ℤ)
    (direction boardState : String) (timeElapsed : ℤ) : Option DB :=
  match db.sessions sessionId with
  | none => none
  | some _ => some
      { db with moves := db.moves ++
          [{ session_id := sessionId
             user_id := userId
             move_number := moveNumber
             tile_position := tilePos
             empty_position := emptyPos
             direction := direction
             board_state := boardState
             time_elapsed := timeElapsed }] }

/-- Partition membership for a `(category, season)` leaderboard slice. -/
def inPart (cat sea : String) (r : LeaderboardRow) : Bool :=
  decide (r.category = cat ∧ r.season = sea)

/-- Row match for the `UNIQUE KEY unique_ranking (user_id, category, season)`
lookup of `updateLeaderboardEntry`. -/
def keyMatch (uid : ℤ) (cat sea : String) (r : LeaderboardRow) : Bool :=
  decide (r.user_id = uid ∧ r.category = cat ∧ r.season = sea)

/-- Orientation of `recalculateLeaderboardRanks`: `ORDER BY score ASC` when
the category name contains `speed` or `moves`, `DESC` otherwise. -/
def ascOrder (cat : String) : Bool :=
  strContains cat "speed" || strContains cat "moves"

/-- Comparison used to sort a partition: ascending or descending by score. -/
def scoreRel (asc : Bool) (a b : LeaderboardRow) : Prop :=
  if asc then a.score ≤ b.score else b.score ≤ a.score

instance scoreRelDecidable (asc : Bool) : DecidableRel (scoreRel asc) := fun a b => by
  unfold scoreRel
  infer_instance

instance scoreRelTotal (asc : Bool) : IsTotal LeaderboardRow (scoreRel asc) := by
  constructor
  intro a b
  cases asc <;> unfold scoreRel <;> simp <;> exact le_total _ _

instance scoreRelTrans (asc : Bool) : IsTrans LeaderboardRow (scoreRel asc) := by
  constructor
  intro a b c h1 h2
  cases asc <;> unfold scoreRel at h1 h2 ⊢ <;> simp at h1 h2 ⊢ <;>
    first
    | exact le_trans h1 h2
    | exact le_trans h2 h1

/-- Projection of a leaderboard row to everything except the derived
`rank_position` column. -/
def stripRank (r : LeaderboardRow) : ℤ × String × String × ℚ × ℤ :=
  (r.user_id, r.category, r.season, r.score, r.elo_rating)

/-- Rank assignment of the `UPDATE leaderboards SET rank_position =
(@rank := @rank + 1) ... ORDER BY score` sweep, applied to the rows in sort
order: the first row gets rank `n`, the next `n + 1`, and so on (the sweep is
invoked with `@rank = 0`, i.e. `n = 1`). -/
def assignRanks : ℤ → List LeaderboardRow → List LeaderboardRow
  | _, [] => []
  | n, r :: rs => { r with rank_position := n } :: assignRanks (n + 1) rs

/-- The rank recomputation `recalculateLeaderboardRanks(category, season)`:
renumber every row of the `(category, season)` partition as 1..N in score
order under the category's orientation.  A SQL table is unordered, so the
embedding keeps the renumbered partition rows grouped after the untouched
rows of other partitions; ties are broken by the (deterministic but
unspecified) order the stable sort inherits from the list. -/
def recalculateLeaderboardRanks (lb : List LeaderboardRow) (cat sea : String) :
    List LeaderboardRow :=
  let others := lb.filter fun r => !(inPart cat sea r)
  let sorted := List.insertionSort (scoreRel (ascOrder cat)) (lb.filter (inPart cat sea))
  others ++ assignRanks 1 sorted

/-- The upsert `updateLeaderboardEntry(userId, category, score, eloRating,
season)`: if a row for the unique key exists, overwrite score and rating
snapshot only when `shouldUpdate` holds — and the source computes
`shouldUpdate` with the same strict `score < existing.score` test in both
arms of its `category.includes("speed")` conditional (the `else` arm is
commented `Fewer moves is better`), so a lower score wins for every
category; otherwise insert a fresh row with `rank_position` 0.  Afterwards
always recalculate the partition's ranks. -/
def updateLeaderboardEntry (lb : List LeaderboardRow) (userId : ℤ)
    (category : String) (score : ℚ) (eloRating : ℤ) (season : String) :
    List LeaderboardRow :=
  let lb1 :=
    match lb.find? (keyMatch userId category season) with
    | some existing =>
      let shouldUpdate :=
        if strContains category "speed"
        then decide (score < existing.score)
        else decide (score < existing.score)
      if shouldUpdate then
        lb.map fun r =>
          if keyMatch userId category season r
          then { r with score := score, elo_rating := eloRating }
          else r
      else lb
    | none =>
      lb ++ [{ user_id := userId, category := category, season := season,
               score := score, elo_rating := eloRating, rank_position := 0 }]
  recalculateLeaderboardRanks lb1 category season

/-- One `updateLeaderboardEntry` call's arguments. -/
structure LbOp where
  uid : ℤ
  cat : String
  score : ℚ
  elo : ℤ
  sea : String

/-- A sequence of upserts applied to the initially empty leaderboard table. -/
def applyOps (ops : List LbOp) : List LeaderboardRow :=
  ops.foldl (fun lb o => updateLeaderboardEntry lb o.uid o.cat o.score o.elo o.sea) []

/-- Rank-consistency of one `(category, season)` leaderboard partition: its
rows carry pairwise distinct users (so N rows = N distinct users), their
`rank_position` values listed in row order are exactly `1, 2, ..., N` — the
set `{1..N}` with no gaps and no shared ranks — and the rows are sorted by
score under the category's ascending/descending orientation, so the rank
order matches each row's score. -/
def GoodPartition (lb : List LeaderboardRow) (cat sea : String) : Prop :=
  ((lb.filter (inPart cat sea)).map (fun r => r.user_id)).Nodup ∧
  (lb.filter (inPart cat sea)).map (fun r => r.rank_position) =
    (List.range (lb.filter (inPart cat sea)).length).map (fun i : ℕ => 1 + (i : ℤ)) ∧
  (lb.filter (inPart cat sea)).Pairwise (scoreRel (ascOrder cat))

/-- Outcome of the complete endpoint, as its JSON responses distinguish
them: 404 for an unknown session, the 400 `Game already completed` conflict
response, or the success payload with the XP gained and the ELO changes
(`none` for a single-player session). -/
inductive CompleteResult where
  | notFound
  | alreadyCompleted
  | success (xpGained : ℕ) (eloChanges : Option (ℤ × ℤ))
  deriving DecidableEq

/-- The `POST /api/games/:sessionId/complete` handler.  Looks up the
session; a missing row is a 404; a session whose status is the string
`completed` — and only that status — is rejected as already completed with
no state change.  Otherwise it (1) updates the session row to `completed`,
(2) runs `sp_update_user_stats` for the AUTHENTICATED CALLER only, with
`isWin = (winnerId === caller)`, (3) if `player2_id` is non-null runs
`sp_update_elo` on both players, (4) awards XP to the caller
(base 50, +25 win, +50 perfect, +30 speed bonus), (5) writes the caller's
three achievement progress rows (`puzzle_enthusiast` reads the caller's
already-updated `total_games`), and (6) if the game mode is `speed`,
upserts the caller's `speed_NxN` leaderboard entry with the completion time
as score and the caller's already-updated `elo_rating` as snapshot. -/
def completeGameHandler (db : DB) (callerId sessionId : ℤ) (winnerId : Option ℤ)
    (completionTime moveCount : ℤ) (perfectGame speedBonus : Bool) :
    CompleteResult × DB :=
  match db.sessions sessionId with
  | none => (.notFound, db)
  | some session =>
    if session.status = "completed" then (.alreadyCompleted, db)
    else
      let db1 := updateGameSessionCompleted db sessionId winnerId completionTime
        moveCount perfectGame speedBonus
      let isWin := winnerId = some callerId
      let stats1 := updFn db1.stats callerId fun s =>
        sp_update_user_stats s isWin completionTime moveCount
          session.board_size session.game_mode
      let eloStep : (ℤ → UserStats) × Option (ℤ × ℤ) :=
        match session.player2_id with
        | some p2 =>
          let r := sp_update_elo stats1 session.player1_id p2 winnerId
          (r.1, some r.2)
        | none => (stats1, none)
      let stats2 := eloStep.1
      let xpGained : ℕ := 50 + (if isWin then 25 else 0) +
        (if perfectGame then 50 else 0) + (if speedBonus then 30 else 0)
      let users1 := (addExperience db1.users callerId xpGained).1
      let ach1 := updateAchievementProgress db1.ach callerId "first_steps" 1
      let ach2 := updateAchievementProgress ach1 callerId "puzzle_enthusiast"
        (stats2 callerId).total_games
      let ach3 := updateAchievementProgress ach2 callerId "speed_demon" completionTime
      let lb1 :=
        if session.game_mode = "speed" then
          updateLeaderboardEntry db1.leaderboards callerId
            ("speed_" ++ toString session.board_size ++ "x" ++ toString session.board_size)
            (completionTime : ℚ) (stats2 callerId).elo_rating "all_time"
        else db1.leaderboards
      (.success xpGained eloStep.2,
        { db1 with stats := stats2, users := users1, ach := ach3, leaderboards := lb1 })

/-- Entry of the in-memory matchmaking queue (`matchmakingQueue[mode]`).
The source entry also carries `username`, the socket handle and `joinedAt`,
none of which influence matching; they are omitted. -/
structure WaitingPlayer where
  userId : ℤ
  boardSize : ℤ
  elo : ℤ
  deriving DecidableEq

/-- Result of a `join_matchmaking` event: either a match (the handler then
creates a session pairing the joiner as `player1` with the removed waiting
player as `player2` and emits `match_found`), or the `matchmaking_joined`
event telling the joiner their queue position. -/
inductive JoinResult where
  | matched (player1 player2 : ℤ) (boardSize : ℤ)
  | queuedAt (position : ℕ)
  deriving DecidableEq

/-- Compatibility test of the queue scan: same board size and ELO ratings no
more than 200 apart (`Math.abs(player.elo - userElo) <= 200`). -/
def compatibleWith (boardSize elo : ℤ) (p : WaitingPlayer) : Bool :=
  decide (p.boardSize = boardSize ∧ |p.elo - elo| ≤ 200)

/-- The `queue.findIndex` + `queue.splice(opponentIndex, 1)` step of the
`join_matchmaking` handler: find the first compatible entry and remove it,
returning it together with the remaining queue; `none` if no entry fits. -/
def joinScan (boardSize elo : ℤ) : List WaitingPlayer →
    Option (WaitingPlayer × List WaitingPlayer)
  | [] => none
  | p :: rest =>
    if compatibleWith boardSize elo p then some (p, rest)
    else
      match joinScan boardSize elo rest with
      | some (q, rest') => some (q, p :: rest')
      | none => none

/-- The `join_matchmaking` socket handler on one mode's queue: scan for the
first waiting player with the same board size within 200 ELO; if found,
remove exactly that entry and pair the two players; otherwise append the
joiner and report the queue position (`queue.length` after the push). -/
def joinMatchmaking (queue : List WaitingPlayer) (userId boardSize elo : ℤ) :
    JoinResult × List WaitingPlayer :=
  match joinScan boardSize elo queue with
  | some (opponent, rest) => (.matched userId opponent.userId boardSize, rest)
  | none =>
    let queue1 := queue ++ [{ userId := userId, boardSize := boardSize, elo := elo }]
    (.queuedAt queue1.length, queue1)

/-- Entry of the in-memory `activeGames` map. -/
structure ActiveGame where
  player1 : ℤ
  player2 : ℤ
  boardSize : ℤ
  mode : String
  deriving DecidableEq

/-- Events the disconnect handler emits to the remaining room members. -/
inductive SocketEvent where
  | opponentDisconnected (sessionId : ℤ)
  deriving DecidableEq

/-- The `disconnect` socket handler: remove the user's first entry from every
mode's matchmaking queue, emit `opponent_disconnected` to the room of every
active game the user participates in, and drop those games from the
in-memory `activeGames` map.  The handler performs NO database operation:
the stored `game_sessions` row is returned untouched (its status keeps
whatever value it had, it is never set to `abandoned`), and no
`user_stats` or rating write happens. -/
def handleDisconnect (queues : List (String × List WaitingPlayer))
    (activeGames : List (ℤ × ActiveGame)) (db : DB) (userId : ℤ) :
    List (String × List WaitingPlayer) × List (ℤ × ActiveGame) × DB × List SocketEvent :=
  let queues1 := queues.map fun mq =>
    (mq.1,
      match mq.2.findIdx? (fun p => p.userId = userId) with
      | some i => mq.2.eraseIdx i
      | none => mq.2)
  let affected := activeGames.filter fun g => g.2.player1 = userId || g.2.player2 = userId
  let events := affected.map fun g => SocketEvent.opponentDisconnected g.1
  let remaining := activeGames.filter fun g => !(g.2.player1 = userId || g.2.player2 = userId)
  (queues1, remaining, db, events)

/-- Concrete two-player `in_progress` session fixture (players 4 and 5). -/
def sessionInProgress2P : GameSession where
  player1_id := 4
  player2_id := some 5
  winner_id := none
  board_size := 4
  game_mode := "speed"
  status := "in_progress"
  completion_time := none
  move_count := 0
  perfect_game := false
  speed_bonus := false
  completed_at_set := false

/-- Concrete single-player `abandoned` session fixture (player 9). -/
def sessionAbandoned : GameSession where
  player1_id := 9
  player2_id := none
  winner_id := none
  board_size := 4
  game_mode := "practice"
  status := "abandoned"
  completion_time := none
  move_count := 0
  perfect_game := false
  speed_bonus := false
  completed_at_set := false

/-- Concrete single-player `completed` session fixture (player 9). -/
def sessionCompleted : GameSession where
  player1_id := 9
  player2_id := none
  winner_id := some 9
  board_size := 4
  game_mode := "practice"
  status := "completed"
  completion_time := some 80
  move_count := 12
  perfect_game := false
  speed_bonus := false
  completed_at_set := true

/-- Concrete single-player `in_progress` session fixture (player 9). -/
def sessionInProgressSolo : GameSession where
  player1_id := 9
  player2_id := none
  winner_id := none
  board_size := 4
  game_mode := "practice"
  status := "in_progress"
  completion_time := none
  move_count := 0
  perfect_game := false
  speed_bonus := false
  completed_at_set := false

/-- Concrete two-player `in_progress` speed session fixture
(caller 9 against opponent 2). -/
def sessionInProgressSpeed : GameSession where
  player1_id := 9
  player2_id := some 2
  winner_id := none
  board_size := 4
  game_mode := "speed"
  status := "in_progress"
  completion_time := none
  move_count := 0
  perfect_game := false
  speed_bonus := false
  completed_at_set := false

/-- Database fixture holding one session under the given id, default stats
and user rows, empty achievements, and the given leaderboard rows. -/
def mkDb (sid : ℤ) (s : GameSession) (lb : List LeaderboardRow) : DB where
  sessions := fun x => if x = sid then some s else none
  stats := fun _ => defaultStats
  users := fun _ => { level := 1, experience_points := 0 }
  ach := fun _ _ => 0
  leaderboards := lb
  moves := []

/-- Leaderboard fixture row: user 1 in the descending-rule category
`rating_overall` (its name contains neither `speed` nor `moves`) with
score 10. -/
def ratingRow : LeaderboardRow where
  user_id := 1
  category := "rating_overall"
  season := "all_time"
  score := 10
  elo_rating := 1000
  rank_position := 1

/-- Leaderboard fixture row: opponent (user 2) holding rank 1 of
`speed_4x4` with score 100. -/
def oppRow : LeaderboardRow where
  user_id := 2
  category := "speed_4x4"
  season := "all_time"
  score := 100
  elo_rating := 1000
  rank_position := 1

/-- Fixture run of the disconnect handler: player 4 of the in-progress
session 7 disconnects while also standing in no matchmaking queue. -/
def disconnectRun :
    List (String × List WaitingPlayer) × List (ℤ × ActiveGame) × DB × List SocketEvent :=
  handleDisconnect [("speed", [])]
    [(7, { player1 := 4, player2 := 5, boardSize := 4, mode := "speed" })]
    (mkDb 7 sessionInProgress2P []) 4

set_option exponentiation.threshold 1000

theorem clampElo_bounds (x : ℤ) : 800 ≤ clampElo x ∧ clampElo x ≤ 3000 := by
  unfold clampElo
  exact ⟨le_max_left _ _, max_le (by norm_num) (min_le_left _ _)⟩

theorem expectedSearch_d0 : expectedSearch 0 0 10001 20 = 5000 := by decide

theorem expectedScore_self (x : ℤ) : expectedScore x x = 1 / 2 := by
  unfold expectedScore
  rw [sub_self, expectedSearch_d0]
  norm_num

/-- Claim C3: for all input ratings and all outcomes, each player's rating
after `sp_update_elo` lies in the closed interval [800, 3000], and the new
rating is the clamp of the FINAL value, old rating plus the unclamped
delta, not a clamp of the delta. -/
theorem elo_update_bounds_and_clamp (stats : ℤ → UserStats) (p1 p2 : ℤ)
    (w : Option ℤ) (h : p1 ≠ p2) :
    800 ≤ ((sp_update_elo stats p1 p2 w).1 p1).elo_rating ∧
    ((sp_update_elo stats p1 p2 w).1 p1).elo_rating ≤ 3000 ∧
    800 ≤ ((sp_update_elo stats p1 p2 w).1 p2).elo_rating ∧
    ((sp_update_elo stats p1 p2 w).1 p2).elo_rating ≤ 3000 ∧
    ((sp_update_elo stats p1 p2 w).1 p1).elo_rating =
      clampElo ((stats p1).elo_rating + (sp_update_elo stats p1 p2 w).2.1) ∧
    ((sp_update_elo stats p1 p2 w).1 p2).elo_rating =
      clampElo ((stats p2).elo_rating + (sp_update_elo stats p1 p2 w).2.2) := by
  unfold sp_update_elo updFn
  simp only [h, if_true, if_false, if_neg, ite_true, ite_false, if_pos]
  simp [h, Ne.symm h]
  exact ⟨(clampElo_bounds _).1, (clampElo_bounds _).2,
    (clampElo_bounds _).1, (clampElo_bounds _).2⟩

theorem elo_update_bounds_and_clamp_witness :
    (1 : ℤ) ≠ 2 ∧
    (800 ≤ ((sp_update_elo (fun _ => defaultStats) 1 2 (some 1)).1 1).elo_rating ∧
    ((sp_update_elo (fun _ => defaultStats) 1 2 (some 1)).1 1).elo_rating ≤ 3000 ∧
    800 ≤ ((sp_update_elo (fun _ => defaultStats) 1 2 (some 1)).1 2).elo_rating ∧
    ((sp_update_elo (fun _ => defaultStats) 1 2 (some 1)).1 2).elo_rating ≤ 3000 ∧
    ((sp_update_elo (fun _ => defaultStats) 1 2 (some 1)).1 1).elo_rating =
      clampElo (((fun _ => defaultStats) (1 : ℤ) : UserStats).elo_rating +
        (sp_update_elo (fun _ => defaultStats) 1 2 (some 1)).2.1) ∧
    ((sp_update_elo (fun _ => defaultStats) 1 2 (some 1)).1 2).elo_rating =
      clampElo (((fun _ => defaultStats) (2 : ℤ) : UserStats).elo_rating +
        (sp_update_elo (fun _ => defaultStats) 1 2 (some 1)).2.2)) :=
  ⟨by decide, elo_update_bounds_and_clamp (fun _ => defaultStats) 1 2 (some 1) (by decide)⟩

/-- Claim C4: at equal ratings 1000 and K = 32 the ELO procedure computes
deltas (+16, -16) for a player 1 win and (0, 0) for a draw; the expected
score is the four-decimal value of the logistic formula, which at equal
ratings is exactly one half (shown both for the embedded `expectedScore`
and for the real-valued logistic expression), and each delta is
`round (32 * (actual - expected))`. -/
theorem elo_equal_ratings_deltas :
    sp_update_elo_changes 1000 1000 (some 1) 1 2 = (16, -16) ∧
    sp_update_elo_changes 1000 1000 none 1 2 = (0, 0) ∧
    expectedScore 1000 1000 = 1 / 2 ∧
    (1 : ℝ) / (1 + (10 : ℝ) ^ ((((1000 : ℤ) - (1000 : ℤ) : ℤ) : ℝ) / 400)) = 1 / 2 ∧
    (sp_update_elo_changes 1000 1000 (some 1) 1 2).1 =
      round ((32 : ℚ) * (1 - expectedScore 1000 1000)) := by
  have hr : (1 : ℝ) / (1 + (10 : ℝ) ^ ((((1000 : ℤ) - (1000 : ℤ) : ℤ) : ℝ) / 400)) = 1 / 2 := by
    have h0 : ((((1000 : ℤ) - (1000 : ℤ) : ℤ) : ℝ) / 400) = 0 := by norm_num
    rw [h0, Real.rpow_zero]
    norm_num
  have hwin : sp_update_elo_changes 1000 1000 (some 1) 1 2 = (16, -16) := by
    unfold sp_update_elo_changes
    rw [expectedScore_self]
    simp only [actualScores]
    norm_num [round_eq]
  refine ⟨hwin, ?_, expectedScore_self 1000, hr, ?_⟩
  · unfold sp_update_elo_changes
    rw [expectedScore_self]
    simp [actualScores]
  · rw [hwin, expectedScore_self]
    norm_num [round_eq]

theorem joinScan_eq_none (b e : ℤ) (q : List WaitingPlayer)
    (h : ∀ p ∈ q, ¬(p.boardSize = b ∧ |p.elo - e| ≤ 200)) :
    joinScan b e q = none := by
  induction q with
  | nil => rfl
  | cons p rest ih =>
    unfold joinScan
    rw [if_neg (by simpa [compatibleWith] using h p (by simp))]
    rw [ih fun x hx => h x (by simp [hx])]

theorem joinScan_first (b e : ℤ) (l1 l2 : List WaitingPlayer) (p : WaitingPlayer)
    (h1 : ∀ q ∈ l1, ¬(q.boardSize = b ∧ |q.elo - e| ≤ 200))
    (hp : p.boardSize = b ∧ |p.elo - e| ≤ 200) :
    joinScan b e (l1 ++ p :: l2) = some (p, l1 ++ l2) := by
  induction l1 with
  | nil =>
    unfold joinScan
    simp only [List.nil_append]
    rw [if_pos (by simpa [compatibleWith] using hp)]
  | cons q rest ih =>
    unfold joinScan
    simp only [List.cons_append]
    rw [if_neg (by simpa [compatibleWith] using h1 q (by simp))]
    rw [ih fun x hx => h1 x (by simp [hx])]

/-- Claim C2: joining matchmaking scans the mode's waiting list for the
first entry with the same board size whose rating is within 200; if one
exists, exactly that entry is removed and the two players are paired,
otherwise the joiner is appended and told their queue position.  In
particular the scenario `enqueue(userA, speed, 4, 1000)` then
`enqueue(userB, speed, 4, 1350)` queues both players without a match,
since the rating gap 350 exceeds 200. -/
theorem matchmaking_join_spec (queue : List WaitingPlayer) (userId boardSize elo : ℤ) :
    ((∀ p ∈ queue, ¬(p.boardSize = boardSize ∧ |p.elo - elo| ≤ 200)) →
      joinMatchmaking queue userId boardSize elo =
        (.queuedAt (queue.length + 1),
          queue ++ [{ userId := userId, boardSize := boardSize, elo := elo }])) ∧
    (∀ l1 p l2, queue = l1 ++ p :: l2 →
      (p.boardSize = boardSize ∧ |p.elo - elo| ≤ 200) →
      (∀ q ∈ l1, ¬(q.boardSize = boardSize ∧ |q.elo - elo| ≤ 200)) →
      joinMatchmaking queue userId boardSize elo =
        (.matched userId p.userId boardSize, l1 ++ l2)) ∧
    joinMatchmaking [] 1 4 1000 =
      (.queuedAt 1, [{ userId := 1, boardSize := 4, elo := 1000 }]) ∧
    joinMatchmaking [{ userId := 1, boardSize := 4, elo := 1000 }] 2 4 1350 =
      (.queuedAt 2, [{ userId := 1, boardSize := 4, elo := 1000 },
        { userId := 2, boardSize := 4, elo := 1350 }]) := by
  refine ⟨?_, ?_, by decide, by decide⟩
  · intro h
    unfold joinMatchmaking
    rw [joinScan_eq_none _ _ _ h]
    simp
  · intro l1 p l2 hq hp h1
    subst hq
    unfold joinMatchmaking
    rw [joinScan_first _ _ _ _ _ h1 hp]

theorem matchmaking_join_spec_witness :
    joinMatchmaking [{ userId := 3, boardSize := 5, elo := 1000 }] 7 4 1000 =
      (.queuedAt 2, [{ userId := 3, boardSize := 5, elo := 1000 },
        { userId := 7, boardSize := 4, elo := 1000 }]) :=
  (matchmaking_join_spec [{ userId := 3, boardSize := 5, elo := 1000 }] 7 4 1000).1
    (by decide)

/-- Claim C7 (code bug): when player 4 disconnects from the in-progress
two-player session 7, the handler notifies the room and drops the in-memory
entry, but the stored session's status is still `in_progress` — it is never
set to `abandoned` — and no stats or rating row of either participant is
written.  The claim's `no rating or stats write` half holds; its status
transition does not happen in the code. -/
theorem disconnect_no_abandon_write :
    ((disconnectRun.2.2.1.sessions 7).map GameSession.status = some "in_progress") ∧
    ((disconnectRun.2.2.1.sessions 7).map GameSession.status ≠ some "abandoned") ∧
    disconnectRun.2.2.2 = [.opponentDisconnected 7] ∧
    disconnectRun.2.1 = [] ∧
    disconnectRun.2.2.1.stats 4 = (mkDb 7 sessionInProgress2P []).stats 4 ∧
    disconnectRun.2.2.1.stats 5 = (mkDb 7 sessionInProgress2P []).stats 5 := by
  refine ⟨rfl, by decide, rfl, rfl, rfl, rfl⟩

/-- Claim C8 (amended): `recordMove` performs no status check whatsoever:
for every existing session — whatever its status, `in_progress` or terminal —
the move row is appended to the `game_moves` log and nothing else in the
database changes (in particular the session row and its status are never
mutated); only a nonexistent session makes the insert fail, through the
foreign key. -/
theorem recordMove_appends_regardless_of_status (db : DB)
    (sid uid mn tp ep : ℤ) (dir bs : String) (te : ℤ) (s : GameSession)
    (hs : db.sessions sid = some s) :
    recordMove db sid uid mn tp ep dir bs te =
      some { db with moves := db.moves ++
        [{ session_id := sid, user_id := uid, move_number := mn,
           tile_position := tp, empty_position := ep, direction := dir,
           board_state := bs, time_elapsed := te }] } := by
  unfold recordMove
  rw [hs]

theorem recordMove_appends_witness :
    (mkDb 2 sessionCompleted []).sessions 2 = some sessionCompleted ∧
    recordMove (mkDb 2 sessionCompleted []) 2 9 1 3 8 "up" "x" 5 =
      some { mkDb 2 sessionCompleted [] with moves := (mkDb 2 sessionCompleted []).moves ++
        [{ session_id := 2, user_id := 9, move_number := 1,
           tile_position := 3, empty_position := 8, direction := "up",
           board_state := "x", time_elapsed := 5 }] } :=
  ⟨rfl, recordMove_appends_regardless_of_status (mkDb 2 sessionCompleted [])
    2 9 1 3 8 "up" "x" 5 sessionCompleted rfl⟩

/-- Counterexample to claim C8 as stated: session 2 is stored with status
`completed`, yet `recordMove` does not reject the move — it appends it to
the move log (log length goes from 0 to 1). -/
theorem recordMove_terminal_not_rejected :
    sessionCompleted.status = "completed" ∧
    (recordMove (mkDb 2 sessionCompleted []) 2 9 1 3 8 "up" "x" 5).map
      (fun d => d.moves.length) = some 1 ∧
    (mkDb 2 sessionCompleted []).moves.length = 0 :=
  ⟨rfl, rfl, rfl⟩

/-- Claim C9 (code bug): on a fresh stats row (0 games, average 0) a
completion with time 100 stores average completion time 50, not the 100 the
incremental-mean formula `(oldAvg * oldCount + new) / (oldCount + 1)`
prescribes: MySQL's left-to-right `UPDATE` evaluation makes `total_games`
already `oldCount + 1` inside the average expression, so the code computes
`round ((oldAvg * (oldCount + 1) + new) / (oldCount + 2))`. -/
theorem stats_average_uses_updated_count :
    (sp_update_user_stats defaultStats true 100 10 4 "speed").average_completion_time = 50 ∧
    ((0 : ℚ) * 0 + 100) / (0 + 1) = 100 := by
  constructor
  · simp [sp_update_user_stats, defaultStats]
    norm_num [round_eq]
  · norm_num

/-- Claim C1 (amended): the complete endpoint rejects with the conflict
response exactly the status string `completed` — not the other terminal
statuses — and then performs no state change at all; consequently, after a
first successful complete the stored status is `completed` and any second
complete call on the same session (same or different arguments) returns the
conflict response and leaves the whole database unchanged, so stats and
ratings are mutated exactly once. -/
theorem complete_idempotent_on_completed (db : DB) (caller sid : ℤ)
    (w : Option ℤ) (t m : ℤ) (pg sb : Bool)
    (caller' : ℤ) (w' : Option ℤ) (t' m' : ℤ) (pg' sb' : Bool)
    (s : GameSession) (hs : db.sessions sid = some s) :
    (s.status = "completed" →
      completeGameHandler db caller sid w t m pg sb = (.alreadyCompleted, db)) ∧
    (s.status ≠ "completed" →
      completeGameHandler (completeGameHandler db caller sid w t m pg sb).2
          caller' sid w' t' m' pg' sb' =
        (.alreadyCompleted, (completeGameHandler db caller sid w t m pg sb).2)) := by
  constructor
  · intro hstat
    unfold completeGameHandler
    rw [hs]
    simp [hstat]
  · intro hstat
    have h2 : (completeGameHandler db caller sid w t m pg sb).2.sessions sid =
        some { s with
               status := "completed"
               winner_id := w
               completion_time := some t
               move_count := m
               perfect_game := pg
               speed_bonus := sb
               completed_at_set := true } := by
      unfold completeGameHandler
      rw [hs]
      simp only [if_neg hstat]
      simp [updateGameSessionCompleted, hs]
    set db1 := (completeGameHandler db caller sid w t m pg sb).2 with hdb1
    unfold completeGameHandler
    rw [h2]
    simp

theorem complete_idempotent_witness :
    ((mkDb 3 sessionInProgressSolo []).sessions 3 = some sessionInProgressSolo) ∧
    sessionInProgressSolo.status ≠ "completed" ∧
    completeGameHandler
        (completeGameHandler (mkDb 3 sessionInProgressSolo []) 9 3 (some 9) 100 10 false false).2
        9 3 (some 9) 100 10 false false =
      (.alreadyCompleted,
        (completeGameHandler (mkDb 3 sessionInProgressSolo []) 9 3 (some 9) 100 10 false false).2) :=
  ⟨rfl, by decide,
    (complete_idempotent_on_completed (mkDb 3 sessionInProgressSolo []) 9 3 (some 9)
      100 10 false false 9 (some 9) 100 10 false false sessionInProgressSolo rfl).2
      (by decide)⟩

/-- Counterexample to claim C1 as stated: session 5 is stored in the
TERMINAL status `abandoned`, yet the complete call does not fail with the
conflict error — only the string `completed` is guarded — and it performs
its side effects: the success payload is returned, the caller's
`total_games` goes from 0 to 1, and the session row is overwritten to
status `completed`. -/
theorem complete_on_abandoned_proceeds :
    sessionAbandoned.status = "abandoned" ∧
    (completeGameHandler (mkDb 5 sessionAbandoned []) 9 5 (some 9) 100 10 false false).1 =
      .success 75 none ∧
    ((completeGameHandler (mkDb 5 sessionAbandoned []) 9 5 (some 9) 100 10 false false).2.stats 9).total_games = 1 ∧
    ((mkDb 5 sessionAbandoned []).stats 9).total_games = 0 ∧
    ((completeGameHandler (mkDb 5 sessionAbandoned []) 9 5 (some 9) 100 10 false false).2.sessions 5).map
      GameSession.status = some "completed" :=
  ⟨rfl, rfl, rfl, rfl, rfl⟩

theorem inPart_rank_irrel (cat sea : String) (r : LeaderboardRow) (n : ℤ) :
    inPart cat sea { r with rank_position := n } = inPart cat sea r := rfl

theorem assignRanks_map {α : Type} (f : LeaderboardRow → α)
    (hf : ∀ r n, f { r with rank_position := n } = f r) (n : ℤ)
    (l : List LeaderboardRow) : (assignRanks n l).map f = l.map f := by
  induction l generalizing n with
  | nil => rfl
  | cons r rs ih => simp [assignRanks, hf, ih]

theorem assignRanks_length (n : ℤ) (l : List LeaderboardRow) :
    (assignRanks n l).length = l.length := by
  induction l generalizing n with
  | nil => rfl
  | cons r rs ih => simp [assignRanks, ih]

theorem assignRanks_rank_positions (n : ℤ) (l : List LeaderboardRow) :
    (assignRanks n l).map (fun r => r.rank_position) =
      (List.range l.length).map (fun i : ℕ => n + (i : ℤ)) := by
  induction l generalizing n with
  | nil => rfl
  | cons r rs ih =>
    rw [List.length_cons, List.range_succ_eq_map]
    simp only [assignRanks, List.map_cons]
    rw [ih]
    congr 1
    · simp
    · rw [List.map_map]
      refine List.map_congr_left fun i _ => ?_
      simp only [Function.comp]
      push_cast
      ring

theorem mem_assignRanks {b : LeaderboardRow} {n : ℤ} {l : List LeaderboardRow}
    (hb : b ∈ assignRanks n l) :
    ∃ a ∈ l, ∃ m : ℤ, b = { a with rank_position := m } := by
  induction l generalizing n with
  | nil => cases hb
  | cons r rs ih =>
    rcases List.mem_cons.mp hb with hb1 | hb1
    · exact ⟨r, by simp, n, hb1⟩
    · obtain ⟨a, ha, m, hm⟩ := ih hb1
      exact ⟨a, by simp [ha], m, hm⟩

theorem filter_map_comm (p : LeaderboardRow → Bool)
    (f : LeaderboardRow → LeaderboardRow) (hf : ∀ r, p (f r) = p r)
    (l : List LeaderboardRow) : (l.map f).filter p = (l.filter p).map f := by
  induction l with
  | nil => rfl
  | cons r rs ih =>
    cases hp : p r with
    | false => simp [List.filter_cons, hf, hp, ih]
    | true => simp [List.filter_cons, hf, hp, ih]

theorem pairwise_scoreRel_of_map_score_eq {l1 l2 : List LeaderboardRow} (asc : Bool)
    (h : l1.map (fun r => r.score) = l2.map (fun r => r.score))
    (hp : l2.Pairwise (scoreRel asc)) : l1.Pairwise (scoreRel asc) := by
  have hp' : l2.Pairwise (fun a b : LeaderboardRow =>
      (fun x y : ℚ => if asc then x ≤ y else y ≤ x) a.score b.score) := hp
  have h2 : (l2.map fun r => r.score).Pairwise
      (fun x y : ℚ => if asc then x ≤ y else y ≤ x) :=
    List.pairwise_map.mpr hp'
  rw [← h] at h2
  have h3 : l1.Pairwise (fun a b : LeaderboardRow =>
      (fun x y : ℚ => if asc then x ≤ y else y ≤ x) a.score b.score) :=
    List.pairwise_map.mp h2
  exact h3

theorem recalc_filter_self (lb : List LeaderboardRow) (cat sea : String) :
    (recalculateLeaderboardRanks lb cat sea).filter (inPart cat sea) =
      assignRanks 1
        (List.insertionSort (scoreRel (ascOrder cat)) (lb.filter (inPart cat sea))) := by
  unfold recalculateLeaderboardRanks
  rw [List.filter_append]
  have h1 : (lb.filter fun r => !(inPart cat sea r)).filter (inPart cat sea) = [] := by
    rw [List.filter_filter]
    apply List.filter_eq_nil_iff.mpr
    intro a _
    simp
  have h2 : (assignRanks 1
        (List.insertionSort (scoreRel (ascOrder cat)) (lb.filter (inPart cat sea)))).filter
        (inPart cat sea) =
      assignRanks 1
        (List.insertionSort (scoreRel (ascOrder cat)) (lb.filter (inPart cat sea))) := by
    apply List.filter_eq_self.mpr
    intro b hb
    obtain ⟨a, ha, m, hm⟩ := mem_assignRanks hb
    have hmem : a ∈ lb.filter (inPart cat sea) := (List.mem_insertionSort _).mp ha
    have hpart : inPart cat sea a = true := (List.mem_filter.mp hmem).2
    rw [hm, inPart_rank_irrel]
    exact hpart
  rw [h1, h2, List.nil_append]

theorem recalc_filter_other (lb : List LeaderboardRow) (cat sea cat' sea' : String)
    (h : ¬(cat' = cat ∧ sea' = sea)) :
    (recalculateLeaderboardRanks lb cat sea).filter (inPart cat' sea') =
      lb.filter (inPart cat' sea') := by
  unfold recalculateLeaderboardRanks
  rw [List.filter_append]
  have hdisj : ∀ a : LeaderboardRow, inPart cat sea a = true →
      inPart cat' sea' a = false := by
    intro a hap
    simp only [inPart, decide_eq_true_eq] at hap
    apply decide_eq_false
    intro hc
    exact h ⟨by rw [← hc.1, hap.1], by rw [← hc.2, hap.2]⟩
  have h2 : (assignRanks 1
        (List.insertionSort (scoreRel (ascOrder cat)) (lb.filter (inPart cat sea)))).filter
        (inPart cat' sea') = [] := by
    apply List.filter_eq_nil_iff.mpr
    intro b hb
    obtain ⟨a, ha, m, hm⟩ := mem_assignRanks hb
    have hmem : a ∈ lb.filter (inPart cat sea) := (List.mem_insertionSort _).mp ha
    have hpart : inPart cat sea a = true := (List.mem_filter.mp hmem).2
    intro hc
    rw [hm, inPart_rank_irrel, hdisj a hpart] at hc
    cases hc
  have h1 : (lb.filter fun r => !(inPart cat sea r)).filter (inPart cat' sea') =
      lb.filter (inPart cat' sea') := by
    rw [List.filter_filter]
    apply List.filter_congr
    intro a _
    cases hp : inPart cat sea a with
    | false => simp [hp]
    | true => simp [hp, hdisj a hp]
  rw [h1, h2, List.append_nil]

theorem updateLeaderboardEntry_found_better (lb : List LeaderboardRow) (uid : ℤ)
    (cat : String) (sc : ℚ) (e : ℤ) (sea : String) (existing : LeaderboardRow)
    (hfind : lb.find? (keyMatch uid cat sea) = some existing)
    (hlt : sc < existing.score) :
    updateLeaderboardEntry lb uid cat sc e sea =
      recalculateLeaderboardRanks
        (lb.map fun r => if keyMatch uid cat sea r
          then { r with score := sc, elo_rating := e } else r) cat sea := by
  unfold updateLeaderboardEntry
  rw [hfind]
  simp [hlt]

theorem updateLeaderboardEntry_found_worse (lb : List LeaderboardRow) (uid : ℤ)
    (cat : String) (sc : ℚ) (e : ℤ) (sea : String) (existing : LeaderboardRow)
    (hfind : lb.find? (keyMatch uid cat sea) = some existing)
    (hge : ¬ sc < existing.score) :
    updateLeaderboardEntry lb uid cat sc e sea =
      recalculateLeaderboardRanks lb cat sea := by
  unfold updateLeaderboardEntry
  rw [hfind]
  simp [hge]

theorem updateLeaderboardEntry_not_found (lb : List LeaderboardRow) (uid : ℤ)
    (cat : String) (sc : ℚ) (e : ℤ) (sea : String)
    (hfind : lb.find? (keyMatch uid cat sea) = none) :
    updateLeaderboardEntry lb uid cat sc e sea =
      recalculateLeaderboardRanks
        (lb ++ [{ user_id := uid, category := cat, season := sea,
                  score := sc, elo_rating := e, rank_position := 0 }]) cat sea := by
  unfold updateLeaderboardEntry
  rw [hfind]

theorem inPart_upsert_f (uid : ℤ) (cat sea c s : String) (sc : ℚ) (e : ℤ)
    (r : LeaderboardRow) :
    inPart c s (if keyMatch uid cat sea r
      then { r with score := sc, elo_rating := e } else r) = inPart c s r := by
  cases h : keyMatch uid cat sea r <;> simp [h, inPart]

theorem user_upsert_f (uid : ℤ) (cat sea : String) (sc : ℚ) (e : ℤ)
    (r : LeaderboardRow) :
    (if keyMatch uid cat sea r
      then { r with score := sc, elo_rating := e } else r).user_id = r.user_id := by
  cases h : keyMatch uid cat sea r <;> simp [h]

theorem good_recalc (lb1 : List LeaderboardRow) (cat sea : String)
    (hnd : ((lb1.filter (inPart cat sea)).map (fun r => r.user_id)).Nodup) :
    GoodPartition (recalculateLeaderboardRanks lb1 cat sea) cat sea := by
  unfold GoodPartition
  rw [recalc_filter_self]
  have hperm : List.Perm
      (List.insertionSort (scoreRel (ascOrder cat)) (lb1.filter (inPart cat sea)))
      (lb1.filter (inPart cat sea)) := List.perm_insertionSort _ _
  refine ⟨?_, ?_, ?_⟩
  · rw [assignRanks_map (fun r => r.user_id) (fun _ _ => rfl)]
    exact ((hperm.map (fun r => r.user_id)).nodup_iff).mpr hnd
  · rw [assignRanks_rank_positions, assignRanks_length]
  · exact pairwise_scoreRel_of_map_score_eq _
      (assignRanks_map (fun r => r.score) (fun _ _ => rfl) 1 _)
      (List.sorted_insertionSort _ _)

theorem upsert_good (lb : List LeaderboardRow) (uid : ℤ) (cat0 : String) (sc : ℚ)
    (e : ℤ) (sea0 cat sea : String) (hg : GoodPartition lb cat sea) :
    GoodPartition (updateLeaderboardEntry lb uid cat0 sc e sea0) cat sea := by
  by_cases hsame : cat = cat0 ∧ sea = sea0
  · obtain ⟨rfl, rfl⟩ := hsame
    cases hfind : lb.find? (keyMatch uid cat sea) with
    | some existing =>
      by_cases hlt : sc < existing.score
      · rw [updateLeaderboardEntry_found_better lb uid cat sc e sea existing hfind hlt]
        apply good_recalc
        rw [filter_map_comm _ _ (fun r => inPart_upsert_f uid cat sea cat sea sc e r)]
        rw [List.map_map]
        have hmap : ((lb.filter (inPart cat sea)).map
            ((fun r => r.user_id) ∘ fun r => if keyMatch uid cat sea r
              then { r with score := sc, elo_rating := e } else r)) =
            (lb.filter (inPart cat sea)).map (fun r => r.user_id) :=
          List.map_congr_left fun r _ => user_upsert_f uid cat sea sc e r
        rw [hmap]
        exact hg.1
      · rw [updateLeaderboardEntry_found_worse lb uid cat sc e sea existing hfind hlt]
        exact good_recalc _ _ _ hg.1
    | none =>
      rw [updateLeaderboardEntry_not_found lb uid cat sc e sea hfind]
      apply good_recalc
      rw [List.filter_append]
      have hnew : inPart cat sea { user_id := uid, category := cat, season := sea,
                                   score := sc, elo_rating := e, rank_position := 0 } = true := by
        simp [inPart]
      have hsingle : (([{ user_id := uid, category := cat, season := sea,
                          score := sc, elo_rating := e, rank_position := 0 }] :
            List LeaderboardRow).filter (inPart cat sea)) =
          [{ user_id := uid, category := cat, season := sea,
             score := sc, elo_rating := e, rank_position := 0 }] := by
        simp [List.filter_cons, hnew]
      rw [hsingle, List.map_append]
      rw [List.nodup_append]
      refine ⟨hg.1, List.nodup_singleton _, ?_⟩
      intro a ha hb
      simp only [List.map_cons, List.map_nil, List.mem_singleton] at hb
      subst hb
      obtain ⟨r, hr, hru⟩ := List.mem_map.mp ha
      have hrlb : r ∈ lb := (List.mem_filter.mp hr).1
      have hrpart : inPart cat sea r = true := (List.mem_filter.mp hr).2
      apply List.find?_eq_none.mp hfind r hrlb
      simp only [inPart, decide_eq_true_eq] at hrpart
      simp only [keyMatch, decide_eq_true_eq]
      exact ⟨hru, hrpart.1, hrpart.2⟩
  · cases hfind : lb.find? (keyMatch uid cat0 sea0) with
    | some existing =>
      by_cases hlt : sc < existing.score
      · rw [updateLeaderboardEntry_found_better lb uid cat0 sc e sea0 existing hfind hlt]
        unfold GoodPartition
        rw [recalc_filter_other _ _ _ _ _ hsame]
        have hfeq : (lb.map fun r => if keyMatch uid cat0 sea0 r
            then { r with score := sc, elo_rating := e } else r).filter (inPart cat sea) =
            lb.filter (inPart cat sea) := by
          rw [filter_map_comm _ _ (fun r => inPart_upsert_f uid cat0 sea0 cat sea sc e r)]
          conv_rhs => rw [← List.map_id (lb.filter (inPart cat sea))]
          refine List.map_congr_left fun r hr => ?_
          have hrow : inPart cat sea r = true := (List.mem_filter.mp hr).2
          simp only [inPart, decide_eq_true_eq] at hrow
          have hkm : keyMatch uid cat0 sea0 r = false := by
            apply decide_eq_false
            intro hc
            exact hsame ⟨by rw [← hrow.1]; exact hc.2.1, by rw [← hrow.2]; exact hc.2.2⟩
          rw [hkm]
          simp
        rw [hfeq]
        exact hg
      · rw [updateLeaderboardEntry_found_worse lb uid cat0 sc e sea0 existing hfind hlt]
        unfold GoodPartition
        rw [recalc_filter_other _ _ _ _ _ hsame]
        exact hg
    | none =>
      rw [updateLeaderboardEntry_not_found lb uid cat0 sc e sea0 hfind]
      unfold GoodPartition
      rw [recalc_filter_other _ _ _ _ _ hsame]
      rw [List.filter_append]
      have hnew : inPart cat sea { user_id := uid, category := cat0, season := sea0,
                                   score := sc, elo_rating := e, rank_position := 0 } = false := by
        apply decide_eq_false
        intro hc
        exact hsame ⟨hc.1.symm, hc.2.symm⟩
      simp only [List.filter_cons, hnew, Bool.false_eq_true, if_false,
        List.filter_nil, List.append_nil]
      exact hg

theorem foldl_upserts_good (ops : List LbOp) :
    ∀ lb : List LeaderboardRow, (∀ cat sea, GoodPartition lb cat sea) →
    ∀ cat sea, GoodPartition
      (ops.foldl (fun l o => updateLeaderboardEntry l o.uid o.cat o.score o.elo o.sea) lb)
      cat sea := by
  induction ops with
  | nil =>
    intro lb h cat sea
    simpa using h cat sea
  | cons o rest ih =>
    intro lb h cat sea
    rw [List.foldl_cons]
    exact ih _ (fun c s => upsert_good lb o.uid o.cat o.score o.elo o.sea c s (h c s)) cat sea

/-- Claim C5: after any sequence of `updateLeaderboardEntry` calls starting
from an empty leaderboard table, every `(category, season)` partition is
rank-consistent: its rows carry pairwise distinct users, the listed
`rank_position` values are exactly 1..N (the partition's row count, which by
the user distinctness is also its number of distinct users) with no gaps and
no shared ranks, and the rows stand in score order under the category's
rule — ascending when the name contains `speed` or `moves`, descending
otherwise. -/
theorem leaderboard_rank_consistency (ops : List LbOp) (cat sea : String) :
    GoodPartition (applyOps ops) cat sea := by
  unfold applyOps
  apply foldl_upserts_good
  intro c s
  simp [GoodPartition]

theorem keyMatch_imp_inPart {uid : ℤ} {cat sea : String} {q : LeaderboardRow}
    (h : keyMatch uid cat sea q = true) : inPart cat sea q = true := by
  simp only [keyMatch, decide_eq_true_eq] at h
  simp only [inPart, decide_eq_true_eq]
  exact ⟨h.2.1, h.2.2⟩

theorem find?_of_filter_singleton {p : LeaderboardRow → Bool}
    {l : List LeaderboardRow} {r : LeaderboardRow} (h : l.filter p = [r]) :
    l.find? p = some r := by
  induction l with
  | nil => simp at h
  | cons a rest ih =>
    cases hp : p a with
    | true =>
      rw [List.filter_cons_of_pos hp] at h
      rw [List.find?_cons_of_pos _ hp]
      injection h with h1 _
      rw [h1]
    | false =>
      rw [List.filter_cons_of_neg (by simp [hp])] at h
      rw [List.find?_cons_of_neg _ (by simp [hp])]
      exact ih h

theorem assignRanks_filter_map_score (p : LeaderboardRow → Bool)
    (hp : ∀ r n, p { r with rank_position := n } = p r) (n : ℤ)
    (l : List LeaderboardRow) :
    ((assignRanks n l).filter p).map (fun q => q.score) =
      (l.filter p).map (fun q => q.score) := by
  induction l generalizing n with
  | nil => rfl
  | cons r rs ih =>
    cases hr : p r with
    | true =>
      rw [List.filter_cons_of_pos hr]
      have : p { r with rank_position := n } = true := by rw [hp]; exact hr
      simp only [assignRanks]
      rw [List.filter_cons_of_pos this]
      simp [ih]
    | false =>
      rw [List.filter_cons_of_neg (by simp [hr])]
      have : p { r with rank_position := n } = false := by rw [hp]; exact hr
      simp only [assignRanks]
      rw [List.filter_cons_of_neg (by simp [this])]
      exact ih (n + 1)

theorem recalc_filter_key_map_score (lb1 : List LeaderboardRow)
    (cat sea : String) (uid : ℤ) :
    List.Perm
      (((recalculateLeaderboardRanks lb1 cat sea).filter (keyMatch uid cat sea)).map
        (fun q => q.score))
      ((lb1.filter (keyMatch uid cat sea)).map (fun q => q.score)) := by
  unfold recalculateLeaderboardRanks
  rw [List.filter_append, List.map_append]
  have h0 : (lb1.filter fun r => !(inPart cat sea r)).filter (keyMatch uid cat sea) = [] := by
    apply List.filter_eq_nil_iff.mpr
    intro a ha hk
    have h1 : inPart cat sea a = true := keyMatch_imp_inPart hk
    have h2 := (List.mem_filter.mp ha).2
    rw [h1] at h2
    cases h2
  rw [h0]
  simp only [List.map_nil, List.nil_append]
  rw [assignRanks_filter_map_score (keyMatch uid cat sea) (fun _ _ => rfl)]
  have hperm : List.Perm
      ((List.insertionSort (scoreRel (ascOrder cat)) (lb1.filter (inPart cat sea))).filter
        (keyMatch uid cat sea))
      ((lb1.filter (inPart cat sea)).filter (keyMatch uid cat sea)) :=
    (List.perm_insertionSort _ _).filter _
  have hff : (lb1.filter (inPart cat sea)).filter (keyMatch uid cat sea) =
      lb1.filter (keyMatch uid cat sea) := by
    rw [List.filter_filter]
    apply List.filter_congr
    intro a _
    cases hk : keyMatch uid cat sea a with
    | true => simp [keyMatch_imp_inPart hk]
    | false => simp
  rw [hff] at hperm
  exact hperm.map _

/-- Claim C6 (amended): when an entry already exists for the unique key
`(userId, category, season)`, the upsert overwrites its score exactly when
the new score is STRICTLY LOWER than the stored one — for every category,
ascending or descending alike, because both arms of the source's
`category.includes("speed")` conditional use the same `score <
existing.score` test; an equal score never overwrites. -/
theorem upsert_overwrites_iff_lower (lb : List LeaderboardRow) (uid : ℤ)
    (cat : String) (sc : ℚ) (e : ℤ) (sea : String) (r : LeaderboardRow)
    (hone : lb.filter (keyMatch uid cat sea) = [r]) :
    ((updateLeaderboardEntry lb uid cat sc e sea).filter (keyMatch uid cat sea)).map
      (fun q => q.score) = [if sc < r.score then sc else r.score] := by
  have hfind : lb.find? (keyMatch uid cat sea) = some r := find?_of_filter_singleton hone
  by_cases hlt : sc < r.score
  · rw [updateLeaderboardEntry_found_better lb uid cat sc e sea r hfind hlt]
    have hkr : keyMatch uid cat sea r = true := by
      have hmem : r ∈ lb.filter (keyMatch uid cat sea) := by
        rw [hone]
        simp
      exact (List.mem_filter.mp hmem).2
    have hkf : ∀ q, keyMatch uid cat sea (if keyMatch uid cat sea q
        then { q with score := sc, elo_rating := e } else q) =
        keyMatch uid cat sea q := by
      intro q
      cases hk : keyMatch uid cat sea q with
      | true =>
        simp only [hk, if_true]
        exact hk
      | false => simp [hk]
    have hperm := recalc_filter_key_map_score
      (lb.map fun q => if keyMatch uid cat sea q
        then { q with score := sc, elo_rating := e } else q) cat sea uid
    have hmap : ((lb.map fun q => if keyMatch uid cat sea q
        then { q with score := sc, elo_rating := e } else q).filter
          (keyMatch uid cat sea)).map (fun q => q.score) = [sc] := by
      rw [filter_map_comm _ _ hkf, hone]
      simp [hkr]
    rw [hmap] at hperm
    rw [if_pos hlt]
    exact List.perm_singleton.mp hperm
  · rw [updateLeaderboardEntry_found_worse lb uid cat sc e sea r hfind hlt]
    have hperm := recalc_filter_key_map_score lb cat sea uid
    rw [hone] at hperm
    rw [if_neg hlt]
    exact List.perm_singleton.mp hperm

theorem upsert_overwrites_iff_lower_witness :
    ([ratingRow].filter (keyMatch 1 "rating_overall" "all_time") = [ratingRow]) ∧
    ((updateLeaderboardEntry [ratingRow] 1 "rating_overall" 5 1000 "all_time").filter
      (keyMatch 1 "rating_overall" "all_time")).map (fun q => q.score) =
      [if (5 : ℚ) < ratingRow.score then (5 : ℚ) else ratingRow.score] :=
  ⟨rfl, upsert_overwrites_iff_lower [ratingRow] 1 "rating_overall" 5 1000 "all_time"
    ratingRow rfl⟩

/-- Counterexample to claim C6 as stated: `rating_overall` is a
descending-rule category (it contains neither `speed` nor `moves`), so by
the claim a higher new score (20 against the stored 10) must overwrite;
the code keeps the stored score 10. -/
theorem higher_score_not_stored_descending :
    ((updateLeaderboardEntry [ratingRow] 1 "rating_overall" 20 1000 "all_time").map
      (fun q => q.score)) = [10] ∧ ratingRow.score = 10 ∧ (10 : ℚ) < 20 := by
  refine ⟨?_, rfl, by norm_num⟩
  have hfind : ([ratingRow] : List LeaderboardRow).find?
      (keyMatch 1 "rating_overall" "all_time") = some ratingRow := rfl
  have hge : ¬ (20 : ℚ) < ratingRow.score := by
    norm_num [ratingRow]
  rw [updateLeaderboardEntry_found_worse _ _ _ _ _ _ _ hfind hge]
  unfold recalculateLeaderboardRanks
  simp [assignRanks, ratingRow, inPart]

theorem updFn_ne {α : Type} [DecidableEq α] {β : Type} (f : α → β) (k : α)
    (g : β → β) (u : α) (h : u ≠ k) : updFn f k g u = f u := by
  unfold updFn
  rw [if_neg h]

theorem sp_update_elo_frame (stats : ℤ → UserStats) (p1 p2 : ℤ) (w : Option ℤ)
    (u : ℤ) :
    (sp_update_elo stats p1 p2 w).1 u =
      { stats u with elo_rating := ((sp_update_elo stats p1 p2 w).1 u).elo_rating } ∧
    (p1 ≠ u → p2 ≠ u → (sp_update_elo stats p1 p2 w).1 u = stats u) := by
  constructor
  · unfold sp_update_elo updFn
    by_cases h2 : u = p2 <;> by_cases h1 : u = p1 <;>
      by_cases hp : p1 = p2 <;> simp [h1, h2, hp, eq_comm]
  · intro h1 h2
    unfold sp_update_elo
    dsimp only
    rw [updFn_ne _ _ _ _ (fun h => h2 h.symm), updFn_ne _ _ _ _ (fun h => h1 h.symm)]

theorem filter_partition_perm (p : LeaderboardRow → Bool) (l : List LeaderboardRow) :
    List.Perm ((l.filter fun r => !(p r)) ++ l.filter p) l := by
  induction l with
  | nil => simp
  | cons a rest ih =>
    cases hp : p a with
    | true =>
      simp only [List.filter_cons, hp, Bool.not_true, Bool.false_eq_true, if_false, if_true]
      exact (List.perm_middle).trans (ih.cons a)
    | false =>
      simp only [List.filter_cons, hp, Bool.not_false, Bool.false_eq_true, if_false, if_true]
      exact ih.cons a

theorem recalc_strip_perm (lb : List LeaderboardRow) (cat sea : String) :
    List.Perm ((recalculateLeaderboardRanks lb cat sea).map stripRank)
      (lb.map stripRank) := by
  unfold recalculateLeaderboardRanks
  rw [List.map_append]
  rw [assignRanks_map stripRank (fun _ _ => rfl)]
  have h1 : List.Perm
      ((List.insertionSort (scoreRel (ascOrder cat)) (lb.filter (inPart cat sea))).map
        stripRank)
      ((lb.filter (inPart cat sea)).map stripRank) :=
    (List.perm_insertionSort _ _).map _
  refine ((List.Perm.refl _).append h1).trans ?_
  rw [← List.map_append]
  exact (filter_partition_perm (inPart cat sea) lb).map _

theorem upsert_strip_filter_perm (lb : List LeaderboardRow) (caller : ℤ)
    (cat : String) (sc : ℚ) (e : ℤ) (sea : String) (u : ℤ) (hu : u ≠ caller) :
    List.Perm
      (((updateLeaderboardEntry lb caller cat sc e sea).map stripRank).filter
        (fun q => decide (q.1 = u)))
      ((lb.map stripRank).filter (fun q => decide (q.1 = u))) := by
  cases hfind : lb.find? (keyMatch caller cat sea) with
  | some existing =>
    by_cases hlt : sc < existing.score
    · rw [updateLeaderboardEntry_found_better lb caller cat sc e sea existing hfind hlt]
      refine ((recalc_strip_perm _ cat sea).filter _).trans ?_
      have heq : ∀ l : List LeaderboardRow, ((l.map fun r => if keyMatch caller cat sea r
          then { r with score := sc, elo_rating := e } else r).map stripRank).filter
            (fun q => decide (q.1 = u)) =
          (l.map stripRank).filter (fun q => decide (q.1 = u)) := by
        intro l
        induction l with
        | nil => rfl
        | cons r rs ih =>
          simp only [List.map_cons, List.filter_cons]
          cases hk : keyMatch caller cat sea r with
          | false =>
            simp only [hk, Bool.false_eq_true, if_false]
            rw [ih]
          | true =>
            have hruser : r.user_id = caller := by
              simp only [keyMatch, decide_eq_true_eq] at hk
              exact hk.1
            have hcu : ¬ caller = u := fun hh => hu hh.symm
            simp [stripRank, hruser, hcu]
            rw [← List.map_map]
            exact ih
      rw [heq]
    · rw [updateLeaderboardEntry_found_worse lb caller cat sc e sea existing hfind hlt]
      exact (recalc_strip_perm lb cat sea).filter _
  | none =>
    rw [updateLeaderboardEntry_not_found lb caller cat sc e sea hfind]
    refine ((recalc_strip_perm _ cat sea).filter _).trans ?_
    rw [List.map_append, List.filter_append]
    have hnew : (([{ user_id := caller, category := cat, season := sea,
                     score := sc, elo_rating := e, rank_position := 0 }] :
          List LeaderboardRow).map stripRank).filter (fun q => decide (q.1 = u)) = [] := by
      simp [stripRank, Ne.symm hu]
    rw [hnew, List.append_nil]

/-- Claim C10 (amended): a successful complete call touches only the
authenticated caller's stats, experience, achievements and leaderboard
entries.  For every other user `u` — the opponent included — the only
`user_stats` field that can change is `elo_rating` (written by
`sp_update_elo`), and it changes only when `u` is one of the session's two
players; `u`'s `users` row (level, XP) and achievement progress are
untouched; and no leaderboard upsert happens for `u`: the multiset of `u`'s
leaderboard rows, ranks aside, is unchanged — unlike the claim's stronger
`entries unchanged`, since the partition-wide renumbering triggered by the
caller's upsert MAY rewrite the `rank_position` of `u`'s row. -/
theorem complete_opponent_frame (db : DB) (caller sid : ℤ) (w : Option ℤ)
    (t m : ℤ) (pg sb : Bool) (u : ℤ) (s : GameSession)
    (hu : u ≠ caller) (hs : db.sessions sid = some s)
    (hstat : s.status ≠ "completed") :
    (completeGameHandler db caller sid w t m pg sb).2.stats u =
      { db.stats u with
        elo_rating := ((completeGameHandler db caller sid w t m pg sb).2.stats u).elo_rating } ∧
    (s.player1_id ≠ u → s.player2_id ≠ some u →
      (completeGameHandler db caller sid w t m pg sb).2.stats u = db.stats u) ∧
    (completeGameHandler db caller sid w t m pg sb).2.users u = db.users u ∧
    (∀ k, (completeGameHandler db caller sid w t m pg sb).2.ach u k = db.ach u k) ∧
    List.Perm
      (((completeGameHandler db caller sid w t m pg sb).2.leaderboards.map stripRank).filter
        (fun q => decide (q.1 = u)))
      ((db.leaderboards.map stripRank).filter (fun q => decide (q.1 = u))) := by
  unfold completeGameHandler
  rw [hs]
  simp only [if_neg hstat]
  refine ⟨?_, ?_, ?_, ?_, ?_⟩
  · cases hp2 : s.player2_id with
    | none =>
      dsimp only
      rw [updFn_ne _ _ _ _ hu]
      rfl
    | some p2 =>
      dsimp only
      have hf := (sp_update_elo_frame
        (updFn (updateGameSessionCompleted db sid w t m pg sb).stats caller
          (fun st => sp_update_user_stats st (w = some caller) t m
            s.board_size s.game_mode)) s.player1_id p2 w u).1
      rw [hf, updFn_ne _ _ _ _ hu]
      rfl
  · intro h1 h2
    cases hp2 : s.player2_id with
    | none =>
      dsimp only
      rw [updFn_ne _ _ _ _ hu]
      rfl
    | some p2 =>
      dsimp only
      have hne2 : p2 ≠ u := by
        intro hh
        rw [hp2, hh] at h2
        exact h2 rfl
      have hf := (sp_update_elo_frame
        (updFn (updateGameSessionCompleted db sid w t m pg sb).stats caller
          (fun st => sp_update_user_stats st (w = some caller) t m
            s.board_size s.game_mode)) s.player1_id p2 w u).2 h1 hne2
      rw [hf, updFn_ne _ _ _ _ hu]
      rfl
  · unfold addExperience
    dsimp only
    rw [updFn_ne _ _ _ _ hu]
    rfl
  · intro k
    simp [updateAchievementProgress, hu]
    rfl
  · by_cases hmode : s.game_mode = "speed"
    · simp only [hmode, if_pos]
      exact upsert_strip_filter_perm _ _ _ _ _ _ _ hu
    · simp only [if_neg hmode]
      exact List.Perm.refl _

theorem complete_opponent_frame_witness :
    (2 : ℤ) ≠ 9 ∧
    (mkDb 1 sessionInProgressSpeed []).sessions 1 = some sessionInProgressSpeed ∧
    sessionInProgressSpeed.status ≠ "completed" ∧
    ((completeGameHandler (mkDb 1 sessionInProgressSpeed []) 9 1 (some 9) 50 30
        false false).2.stats 2 =
      { (mkDb 1 sessionInProgressSpeed []).stats 2 with
        elo_rating := ((completeGameHandler (mkDb 1 sessionInProgressSpeed []) 9 1
          (some 9) 50 30 false false).2.stats 2).elo_rating } ∧
    (sessionInProgressSpeed.player1_id ≠ 2 → sessionInProgressSpeed.player2_id ≠ some 2 →
      (completeGameHandler (mkDb 1 sessionInProgressSpeed []) 9 1 (some 9) 50 30
        false false).2.stats 2 = (mkDb 1 sessionInProgressSpeed []).stats 2) ∧
    (completeGameHandler (mkDb 1 sessionInProgressSpeed []) 9 1 (some 9) 50 30
        false false).2.users 2 = (mkDb 1 sessionInProgressSpeed []).users 2 ∧
    (∀ k, (completeGameHandler (mkDb 1 sessionInProgressSpeed []) 9 1 (some 9) 50 30
        false false).2.ach 2 k = (mkDb 1 sessionInProgressSpeed []).ach 2 k) ∧
    List.Perm
      (((completeGameHandler (mkDb 1 sessionInProgressSpeed []) 9 1 (some 9) 50 30
          false false).2.leaderboards.map stripRank).filter (fun q => decide (q.1 = 2)))
      (((mkDb 1 sessionInProgressSpeed []).leaderboards.map stripRank).filter
        (fun q => decide (q.1 = 2)))) :=
  ⟨by decide, rfl, by decide,
    complete_opponent_frame (mkDb 1 sessionInProgressSpeed []) 9 1 (some 9) 50 30
      false false 2 sessionInProgressSpeed (by decide) rfl (by decide)⟩

/-- Counterexample to claim C10 as stated: before the call the opponent
(user 2) holds the `speed_4x4` entry with `rank_position` 1; caller 9
completes the speed session with a better time (50 against the stored 100),
and the partition renumbering triggered by the caller's upsert rewrites the
opponent's row to `rank_position` 2 — the opponent's leaderboard entry is
NOT unchanged by the call. -/
theorem opponent_rank_rewritten_by_complete :
    ((((mkDb 1 sessionInProgressSpeed [oppRow]).leaderboards.filter
      (fun r => decide (r.user_id = 2))).map (fun r => r.rank_position)) = [1]) ∧
    (((completeGameHandler (mkDb 1 sessionInProgressSpeed [oppRow]) 9 1 (some 9) 50 30
        false false).2.leaderboards.filter
      (fun r => decide (r.user_id = 2))).map (fun r => r.rank_position)) = [2] := by
  constructor
  · rfl
  · have hgen : ∀ E : ℤ, (((updateLeaderboardEntry [oppRow] 9 "speed_4x4" 50 E
        "all_time").filter (fun r => decide (r.user_id = 2))).map
        (fun r => r.rank_position)) = [2] := by
      intro E
      rw [updateLeaderboardEntry_not_found [oppRow] 9 "speed_4x4" 50 E "all_time" rfl]
      have hasc : ascOrder "speed_4x4" = true := by decide
      unfold recalculateLeaderboardRanks
      rw [hasc]
      simp only [List.cons_append, List.nil_append]
      have hnle : ¬ scoreRel true oppRow { user_id := 9, category := "speed_4x4",
                                           season := "all_time", score := 50,
                                           elo_rating := E, rank_position := 0 } := by
        simp [scoreRel, oppRow]
        norm_num
      simp [inPart, oppRow, List.filter_cons, assignRanks, hnle]
    obtain ⟨E, hE⟩ : ∃ E : ℤ,
        (completeGameHandler (mkDb 1 sessionInProgressSpeed [oppRow]) 9 1 (some 9) 50 30
          false false).2.leaderboards =
        updateLeaderboardEntry [oppRow] 9 "speed_4x4" 50 E "all_time" := ⟨_, rfl⟩
    rw [hE]
    exact hgen E
